import Mathlib

/-!
Shallow embedding of `plasma_core/transaction.py`: the Plasma transaction
record, its RLP encoding over the unsigned view, hashing, signing and
confirmation, together with proofs of the specification's claims.

Byte strings are `List Nat` (each element a byte value).  The chain hash
function and the signature scheme live outside this file's source
(`ethereum.utils`, `plasma_core.utils.signatures`, `plasma_core.constants`):
the hash is threaded as an explicit parameter `H`, and the signature
scheme and constants are modelled from the spec where noted.
-/

namespace Plasma

abbrev Bytes := List Nat

/-- Modelled from the spec: `plasma_core.constants.NULL_ADDRESS` is not under
`src/`; the spec fixes it as the 20-zero-byte address. -/
def NULL_ADDRESS : Bytes := List.replicate 20 0

/-- Modelled from the spec: `plasma_core.constants.NULL_SIGNATURE` is not under
`src/`; the spec fixes it as a fixed-length all-zero byte string (the
signature scheme produces 65-byte recoverable-ECDSA signatures). -/
def NULL_SIGNATURE : Bytes := List.replicate 65 0

/-- `pad_list(to_pad, pad_value, required_length)`: raises `ValueError` when the
list is longer than the required length, otherwise appends copies of
`pad_value` up to the required length. -/
def pad_list (to_pad : List α) (pad_value : α) (required_length : Nat) :
    Except String (List α) :=
  if to_pad.length > required_length then
    Except.error "list cannot be longer than required length"
  else
    Except.ok (to_pad ++ List.replicate (required_length - to_pad.length) pad_value)

/-- Minimal big-endian byte representation of a natural number (RLP
`big_endian_int` sedes payload); `0` encodes to the empty byte string. -/
def beBytes (n : Nat) : Bytes :=
  if n = 0 then [] else beBytes (n / 256) ++ [n % 256]
decreasing_by exact Nat.div_lt_self (Nat.pos_of_ne_zero (by assumption)) (by omega)

/-- RLP encoding of a byte-string item. -/
def rlpBytes (b : Bytes) : Bytes :=
  if b.length = 1 ∧ b.headD 0 < 128 then b
  else if b.length < 56 then (128 + b.length) :: b
  else (183 + (beBytes b.length).length) :: (beBytes b.length ++ b)

/-- RLP encoding of a list item, given the already-concatenated payload of the
encodings of its elements. -/
def rlpList (payload : Bytes) : Bytes :=
  if payload.length < 56 then (192 + payload.length) :: payload
  else (247 + (beBytes payload.length).length) :: (beBytes payload.length ++ payload)

/-- `TransactionInput`: `(blknum, txindex, oindex)`, all defaulting to 0. -/
structure TransactionInput where
  blknum : Nat
  txindex : Nat
  oindex : Nat
deriving DecidableEq, Repr

/-- RLP serialization of a `TransactionInput`: the list of its three fields,
each as a `big_endian_int`. -/
def TransactionInput.serialize (i : TransactionInput) : Bytes :=
  rlpList (rlpBytes (beBytes i.blknum) ++ rlpBytes (beBytes i.txindex) ++
    rlpBytes (beBytes i.oindex))

/-- Modelled from the spec: `ethereum.utils.normalize_address` is not under
`src/`; addresses in this model are already canonical 20-byte strings, so
normalization is the identity. -/
def normalize_address (a : Bytes) : Bytes := a

/-- `TransactionOutput`: an owner address (normalized on construction) and an
amount. -/
structure TransactionOutput where
  owner : Bytes
  amount : Nat
deriving DecidableEq, Repr

/-- RLP serialization of a `TransactionOutput`: the list of the 20-byte
address and the `big_endian_int` amount. -/
def TransactionOutput.serialize (o : TransactionOutput) : Bytes :=
  rlpList (rlpBytes o.owner ++ rlpBytes (beBytes o.amount))

def NUM_TXOS : Nat := 2

def DEFAULT_INPUT : Nat × Nat × Nat := (0, 0, 0)

def DEFAULT_OUTPUT : Bytes × Nat := (NULL_ADDRESS, 0)

/-- The `Transaction` record: inputs, outputs, signatures, confirmations and
the `spent` flags. -/
structure Transaction where
  inputs : List TransactionInput
  outputs : List TransactionOutput
  signatures : List Bytes
  confirmations : List Bytes
  spent : List Bool
deriving DecidableEq, Repr

/-- Python truthiness of a list argument: an empty list selects the default. -/
def orDefault (xs d : List α) : List α := if xs.isEmpty then d else xs

def TransactionInput.ofTriple : Nat × Nat × Nat → TransactionInput
  | (b, t, o) => { blknum := b, txindex := t, oindex := o }

def TransactionOutput.ofPair : Bytes × Nat → TransactionOutput
  | (owner, amount) => { owner := normalize_address owner, amount := amount }

/-- `Transaction.__init__`: defaults for empty argument lists, padding of
inputs and outputs to `NUM_TXOS` (failing when over-long), signatures and
confirmations taken verbatim, `spent` initialized to all-false. -/
def Transaction.make (inputs : List (Nat × Nat × Nat)) (outputs : List (Bytes × Nat))
    (signatures confirmations : List Bytes) : Except String Transaction := do
  let inputs := orDefault inputs (List.replicate NUM_TXOS DEFAULT_INPUT)
  let outputs := orDefault outputs (List.replicate NUM_TXOS DEFAULT_OUTPUT)
  let signatures := orDefault signatures (List.replicate NUM_TXOS NULL_SIGNATURE)
  let confirmations := orDefault confirmations (List.replicate NUM_TXOS NULL_SIGNATURE)
  let padded_inputs ← pad_list inputs DEFAULT_INPUT NUM_TXOS
  let padded_outputs ← pad_list outputs DEFAULT_OUTPUT NUM_TXOS
  Except.ok
    { inputs := padded_inputs.map TransactionInput.ofTriple
      outputs := padded_outputs.map TransactionOutput.ofPair
      signatures := signatures
      confirmations := confirmations
      spent := List.replicate NUM_TXOS false }

/-- `Transaction.encoded`: `rlp.encode(self, UnsignedTransaction)` — the RLP
list of the `inputs` and `outputs` fields only (`UnsignedTransaction.fields`
drops the trailing `signatures` field of `Transaction.fields`). -/
def Transaction.encoded (tx : Transaction) : Bytes :=
  rlpList
    (rlpList (tx.inputs.map TransactionInput.serialize).flatten ++
     rlpList (tx.outputs.map TransactionOutput.serialize).flatten)

/-- `Transaction.hash = utils.sha3(self.encoded)`; the chain hash `H` is an
explicit parameter. -/
def Transaction.hash (tx : Transaction) (H : Bytes → Bytes) : Bytes :=
  H tx.encoded

/-- `Transaction.confirmation_hash = utils.sha3(self.hash)`. -/
def Transaction.confirmation_hash (tx : Transaction) (H : Bytes → Bytes) : Bytes :=
  H (tx.hash H)

/-- `Transaction.joined_signatures`: the signatures joined into one byte string
(Python bytes join with the empty separator). -/
def Transaction.joined_signatures (tx : Transaction) : Bytes :=
  tx.signatures.flatten

/-- `Transaction.joined_confirmations`: the confirmations joined into one byte
string (Python bytes join with the empty separator). -/
def Transaction.joined_confirmations (tx : Transaction) : Bytes :=
  tx.confirmations.flatten

/-- `Transaction.merkle_leaf_data = self.encoded + self.joined_signatures`. -/
def Transaction.merkle_leaf_data (tx : Transaction) : Bytes :=
  tx.encoded ++ tx.joined_signatures

abbrev Key := Nat

/-- Big-endian byte string of exactly `w` bytes holding the low `w` bytes of
`n` (used by the modelled signature scheme, not by the RLP codec). -/
def fixedBytes (w n : Nat) : Bytes :=
  (List.range w).map (fun i => n / 256 ^ (w - 1 - i) % 256)

/-- Modelled from the spec: the address derived from a private key (the
signature scheme lives in `plasma_core.utils.signatures`, not under `src/`).
Keys are naturals; the derived address is the key's low 20 bytes. -/
def addressOf (k : Key) : Bytes := fixedBytes 20 k

/-- A byte string read back as a big-endian natural number. -/
def bytesToNat (b : Bytes) : Nat := b.foldl (fun a x => a * 256 + x) 0

/-- Modelled from the spec: `plasma_core.utils.signatures.sign(hash, key)` is
not under `src/`; the spec requires a recoverable-ECDSA-style scheme producing
a fixed-length (65-byte) signature over the given hash from which the signer's
address can be recovered.  The model embeds the signer's address, a digest of
the hash, and a nonzero recovery byte. -/
def sigSign (h : Bytes) (k : Key) : Bytes :=
  addressOf k ++ fixedBytes 44 (bytesToNat h) ++ [27]

/-- Modelled from the spec: `plasma_core.utils.signatures.get_signer(hash,
signature)` is not under `src/`; the spec requires recovery of the signing
address from `(message_hash, signature)`.  In the model the address occupies
the signature's first 20 bytes. -/
def get_signer (_hsh : Bytes) (sig : Bytes) : Bytes := sig.take 20

/-- `Transaction.signers`: per slot, the null address for a null signature,
otherwise the address recovered from `(hash, signature)`. -/
def Transaction.signers (tx : Transaction) (H : Bytes → Bytes) : List Bytes :=
  tx.signatures.map
    (fun sig => if sig = NULL_SIGNATURE then NULL_ADDRESS else get_signer (tx.hash H) sig)

/-- `Transaction.is_deposit`: true iff every input has `blknum == 0`. -/
def Transaction.is_deposit (tx : Transaction) : Bool :=
  tx.inputs.all (fun i => i.blknum == 0)

/-- Python list item assignment `xs[index] = v` with an `int` index: indices
in `[0, len)` write directly, indices in `[-len, 0)` write slot
`len + index`, anything else raises `IndexError`. -/
def listSetPy (xs : List α) (index : Int) (v : α) : Except String (List α) :=
  if 0 ≤ index ∧ index < (xs.length : Int) then
    Except.ok (xs.set index.toNat v)
  else if -(xs.length : Int) ≤ index ∧ index < 0 then
    Except.ok (xs.set (index + (xs.length : Int)).toNat v)
  else
    Except.error "list assignment index out of range"

/-- `Transaction.sign(index, key)`: `self.signatures[index] = sign(self.hash, key)`. -/
def Transaction.sign (tx : Transaction) (H : Bytes → Bytes) (index : Int) (key : Key) :
    Except String Transaction := do
  let s ← listSetPy tx.signatures index (sigSign (tx.hash H) key)
  Except.ok { tx with signatures := s }

/-- `Transaction.confirm(index, key)`:
`self.confirmations[index] = sign(self.confirmation_hash, key)`. -/
def Transaction.confirm (tx : Transaction) (H : Bytes → Bytes) (index : Int) (key : Key) :
    Except String Transaction := do
  let c ← listSetPy tx.confirmations index (sigSign (tx.confirmation_hash H) key)
  Except.ok { tx with confirmations := c }

/-- The record produced by `Transaction()` with no arguments. -/
def tx0 : Transaction :=
  { inputs := [⟨0, 0, 0⟩, ⟨0, 0, 0⟩]
    outputs := [⟨NULL_ADDRESS, 0⟩, ⟨NULL_ADDRESS, 0⟩]
    signatures := [NULL_SIGNATURE, NULL_SIGNATURE]
    confirmations := [NULL_SIGNATURE, NULL_SIGNATURE]
    spent := [false, false] }

/-! ### Helper lemmas -/

theorem pad_list_ok {α : Type} {l : List α} {p : α} {n : Nat} {l2 : List α}
    (h : pad_list l p n = Except.ok l2) :
    l.length ≤ n ∧ l2 = l ++ List.replicate (n - l.length) p := by
  unfold pad_list at h
  split at h
  · cases h
  · next hc =>
    injection h with h
    exact ⟨by omega, h.symm⟩

theorem pad_list_ok_length {α : Type} {l : List α} {p : α} {n : Nat} {l2 : List α}
    (h : pad_list l p n = Except.ok l2) : l2.length = n := by
  obtain ⟨hle, rfl⟩ := pad_list_ok h
  simp
  omega

theorem pad_list_err {α : Type} {l : List α} (p : α) {n : Nat} (h : n < l.length) :
    pad_list l p n = Except.error "list cannot be longer than required length" := by
  unfold pad_list
  rw [if_pos (by omega)]

theorem make_ok {ins : List (Nat × Nat × Nat)} {outs : List (Bytes × Nat)}
    {sigs confs : List Bytes} {tx : Transaction}
    (h : Transaction.make ins outs sigs confs = Except.ok tx) :
    ∃ pi po,
      pad_list (orDefault ins (List.replicate NUM_TXOS DEFAULT_INPUT))
          DEFAULT_INPUT NUM_TXOS = Except.ok pi ∧
      pad_list (orDefault outs (List.replicate NUM_TXOS DEFAULT_OUTPUT))
          DEFAULT_OUTPUT NUM_TXOS = Except.ok po ∧
      tx = { inputs := pi.map TransactionInput.ofTriple
             outputs := po.map TransactionOutput.ofPair
             signatures := orDefault sigs (List.replicate NUM_TXOS NULL_SIGNATURE)
             confirmations := orDefault confs (List.replicate NUM_TXOS NULL_SIGNATURE)
             spent := List.replicate NUM_TXOS false } := by
  unfold Transaction.make at h
  simp only [Bind.bind] at h
  cases hpi : pad_list (orDefault ins (List.replicate NUM_TXOS DEFAULT_INPUT))
      DEFAULT_INPUT NUM_TXOS with
  | error e => rw [hpi] at h; simp [Bind.bind, Except.bind] at h
  | ok pi =>
    rw [hpi] at h
    cases hpo : pad_list (orDefault outs (List.replicate NUM_TXOS DEFAULT_OUTPUT))
        DEFAULT_OUTPUT NUM_TXOS with
    | error e => rw [hpo] at h; simp [Bind.bind, Except.bind] at h
    | ok po =>
      rw [hpo] at h
      simp only [Bind.bind, Except.bind] at h
      injection h with h
      exact ⟨pi, po, rfl, rfl, h.symm⟩

theorem listSetPy_ok_nonneg {α : Type} {xs : List α} {i : Int} {v : α} {ys : List α}
    (h0 : 0 ≤ i) (h : listSetPy xs i v = Except.ok ys) :
    i < (xs.length : Int) ∧ ys = xs.set i.toNat v := by
  unfold listSetPy at h
  split at h
  · next hc =>
    injection h with h
    exact ⟨hc.2, h.symm⟩
  · split at h
    · next hc => exact absurd hc.2 (by omega)
    · cases h

theorem listSetPy_err {α : Type} {xs : List α} {i : Int} (v : α)
    (h : i < -(xs.length : Int) ∨ (xs.length : Int) ≤ i) :
    listSetPy xs i v = Except.error "list assignment index out of range" := by
  unfold listSetPy
  rw [if_neg (by omega), if_neg (by omega)]

theorem listSetPy_ok_length {α : Type} {xs : List α} {i : Int} {v : α} {ys : List α}
    (h : listSetPy xs i v = Except.ok ys) : ys.length = xs.length := by
  unfold listSetPy at h
  split at h
  · injection h with h; rw [h.symm, List.length_set]
  · split at h
    · injection h with h; rw [h.symm, List.length_set]
    · cases h

theorem sign_ok {tx tx2 : Transaction} {H : Bytes → Bytes} {i : Int} {k : Key}
    (h : tx.sign H i k = Except.ok tx2) :
    ∃ s, listSetPy tx.signatures i (sigSign (tx.hash H) k) = Except.ok s ∧
      tx2 = { tx with signatures := s } := by
  unfold Transaction.sign at h
  cases hs : listSetPy tx.signatures i (sigSign (tx.hash H) k) with
  | error e => rw [hs] at h; simp [Bind.bind, Except.bind] at h
  | ok s =>
    rw [hs] at h
    simp only [Bind.bind, Except.bind] at h
    injection h with h
    exact ⟨s, rfl, h.symm⟩

theorem confirm_ok {tx tx2 : Transaction} {H : Bytes → Bytes} {i : Int} {k : Key}
    (h : tx.confirm H i k = Except.ok tx2) :
    ∃ c, listSetPy tx.confirmations i (sigSign (tx.confirmation_hash H) k) = Except.ok c ∧
      tx2 = { tx with confirmations := c } := by
  unfold Transaction.confirm at h
  cases hc : listSetPy tx.confirmations i (sigSign (tx.confirmation_hash H) k) with
  | error e => rw [hc] at h; simp [Bind.bind, Except.bind] at h
  | ok c =>
    rw [hc] at h
    simp only [Bind.bind, Except.bind] at h
    injection h with h
    exact ⟨c, rfl, h.symm⟩

theorem encoded_congr {tx₁ tx₂ : Transaction} (hin : tx₁.inputs = tx₂.inputs)
    (hout : tx₁.outputs = tx₂.outputs) : tx₁.encoded = tx₂.encoded := by
  unfold Transaction.encoded
  rw [hin, hout]

theorem length_fixedBytes (w n : Nat) : (fixedBytes w n).length = w := by
  simp [fixedBytes]

theorem get_signer_sigSign (h₁ h₂ : Bytes) (k : Key) :
    get_signer h₁ (sigSign h₂ k) = addressOf k := by
  unfold get_signer sigSign
  rw [List.append_assoc,
    show (20 : Nat) = (addressOf k).length from (length_fixedBytes 20 k).symm,
    List.take_left]

theorem sigSign_ne_null (h : Bytes) (k : Key) : sigSign h k ≠ NULL_SIGNATURE := by
  intro e
  have h1 : (sigSign h k).getLast? = some 27 := List.getLast?_concat _
  have h2 : NULL_SIGNATURE.getLast? = some 0 := by decide
  rw [e, h2] at h1
  cases h1

theorem signers_getD (H : Bytes → Bytes) (tx : Transaction) (j : Nat)
    (hj : j < tx.signatures.length) :
    (tx.signers H).getD j [] =
      (if tx.signatures.getD j [] = NULL_SIGNATURE then NULL_ADDRESS
       else get_signer (tx.hash H) (tx.signatures.getD j [])) := by
  unfold Transaction.signers
  rw [List.getD_eq_getElem _ _ (by simpa using hj), List.getElem_map,
    List.getD_eq_getElem _ _ hj]

/-! ### Claim theorems -/

/-- C1: the value of `Transaction.encoded` depends only on `inputs` and
`outputs`: transactions agreeing on inputs and outputs have equal encodings
and hashes, replacing the `signatures` and/or `confirmations` fields with any
other values leaves `encoded` unchanged, and successful `sign`/`confirm`
calls leave `encoded` and hence `hash` unchanged. -/
theorem C1_encoded_pure_in_inputs_outputs (H : Bytes → Bytes) (tx₁ tx₂ : Transaction)
    (hin : tx₁.inputs = tx₂.inputs) (hout : tx₁.outputs = tx₂.outputs)
    (i : Int) (k : Key) :
    tx₁.encoded = tx₂.encoded ∧ tx₁.hash H = tx₂.hash H ∧
    (∀ s c, ({ tx₁ with signatures := s, confirmations := c } : Transaction).encoded
      = tx₁.encoded) ∧
    (∀ tx₃, tx₁.sign H i k = Except.ok tx₃ →
      tx₃.encoded = tx₁.encoded ∧ tx₃.hash H = tx₁.hash H) ∧
    (∀ tx₃, tx₁.confirm H i k = Except.ok tx₃ →
      tx₃.encoded = tx₁.encoded ∧ tx₃.hash H = tx₁.hash H) := by
  have he : tx₁.encoded = tx₂.encoded := encoded_congr hin hout
  refine ⟨he, congrArg H he, fun s c => encoded_congr rfl rfl,
    fun tx₃ h₃ => ?_, fun tx₃ h₃ => ?_⟩
  · obtain ⟨s, hs, rfl⟩ := sign_ok h₃
    exact ⟨encoded_congr rfl rfl, congrArg H (encoded_congr rfl rfl)⟩
  · obtain ⟨c, hc, rfl⟩ := confirm_ok h₃
    exact ⟨encoded_congr rfl rfl, congrArg H (encoded_congr rfl rfl)⟩

/-- Witness for C1 at a concrete transaction: replacing the default record
signatures and confirmations leaves the encoding unchanged. -/
theorem C1_witness :
    ({ tx0 with signatures := [[1], [2]], confirmations := [[3]] } : Transaction).encoded
      = tx0.encoded :=
  (C1_encoded_pure_in_inputs_outputs id
    { tx0 with signatures := [[1], [2]], confirmations := [[3]] } tx0 rfl rfl 0 1).2.2.1
    [[1], [2]] [[3]]

/-- C2: `hash` is the chain hash `H` of the encoding, and `confirmation_hash`
is `H` of the hash bytes — a double hash of the encoding, not a hash of the
encoding itself. -/
theorem C2_hash_and_confirmation_hash (H : Bytes → Bytes) (tx : Transaction) :
    tx.hash H = H tx.encoded ∧ tx.confirmation_hash H = H (tx.hash H) ∧
    tx.confirmation_hash H = H (H tx.encoded) :=
  ⟨rfl, rfl, rfl⟩

/-- C3 counterexample: the constructor takes the caller-supplied signatures
list verbatim, so supplying a single signature yields a transaction whose
`signatures` sequence has length 1, not `NUM_TXOS`. -/
theorem C3_counterexample :
    (Transaction.make [] [] [NULL_SIGNATURE] []).map (fun t => t.signatures.length) =
      Except.ok 1 ∧ (1 : Nat) ≠ NUM_TXOS :=
  ⟨rfl, by decide⟩

/-- C3 (amended): for every successfully constructed transaction, `inputs`,
`outputs` and `spent` always have length `NUM_TXOS`; `signatures` and
`confirmations` have length `NUM_TXOS` when the corresponding argument was
empty and otherwise keep the caller-supplied length; `sign` and `confirm`
preserve all five lengths. -/
theorem C3_lengths (ins : List (Nat × Nat × Nat)) (outs : List (Bytes × Nat))
    (sigs confs : List Bytes) (tx : Transaction)
    (h : Transaction.make ins outs sigs confs = Except.ok tx) :
    tx.inputs.length = NUM_TXOS ∧ tx.outputs.length = NUM_TXOS ∧
    tx.spent.length = NUM_TXOS ∧
    tx.signatures.length = (if sigs.isEmpty then NUM_TXOS else sigs.length) ∧
    tx.confirmations.length = (if confs.isEmpty then NUM_TXOS else confs.length) ∧
    (∀ (H : Bytes → Bytes) (i : Int) (k : Key) (tx₃ : Transaction),
      tx.sign H i k = Except.ok tx₃ →
      tx₃.inputs.length = tx.inputs.length ∧ tx₃.outputs.length = tx.outputs.length ∧
      tx₃.signatures.length = tx.signatures.length ∧
      tx₃.confirmations.length = tx.confirmations.length ∧
      tx₃.spent.length = tx.spent.length) ∧
    (∀ (H : Bytes → Bytes) (i : Int) (k : Key) (tx₃ : Transaction),
      tx.confirm H i k = Except.ok tx₃ →
      tx₃.inputs.length = tx.inputs.length ∧ tx₃.outputs.length = tx.outputs.length ∧
      tx₃.signatures.length = tx.signatures.length ∧
      tx₃.confirmations.length = tx.confirmations.length ∧
      tx₃.spent.length = tx.spent.length) := by
  obtain ⟨pi, po, hpi, hpo, rfl⟩ := make_ok h
  refine ⟨?_, ?_, ?_, ?_, ?_, ?_, ?_⟩
  · simpa using pad_list_ok_length hpi
  · simpa using pad_list_ok_length hpo
  · simp
  · show (orDefault sigs (List.replicate NUM_TXOS NULL_SIGNATURE)).length = _
    unfold orDefault
    split <;> simp
  · show (orDefault confs (List.replicate NUM_TXOS NULL_SIGNATURE)).length = _
    unfold orDefault
    split <;> simp
  · intro H i k tx₃ h₃
    obtain ⟨s, hs, rfl⟩ := sign_ok h₃
    exact ⟨rfl, rfl, listSetPy_ok_length hs, rfl, rfl⟩
  · intro H i k tx₃ h₃
    obtain ⟨c, hc, rfl⟩ := confirm_ok h₃
    exact ⟨rfl, rfl, rfl, listSetPy_ok_length hc, rfl⟩

/-- Witness for C3 (amended) at the default construction. -/
theorem C3_witness : tx0.inputs.length = NUM_TXOS :=
  (C3_lengths [] [] [] [] tx0 rfl).1

/-- C4: `merkle_leaf_data` is the encoding concatenated with the two
signatures in slot order, with no separators. -/
theorem C4_merkle_leaf_data (tx : Transaction) (s0 s1 : Bytes)
    (h : tx.signatures = [s0, s1]) :
    tx.merkle_leaf_data = tx.encoded ++ s0 ++ s1 := by
  unfold Transaction.merkle_leaf_data Transaction.joined_signatures
  rw [h]
  simp [List.append_assoc]

/-- Witness for C4 at the default record. -/
theorem C4_witness :
    tx0.merkle_leaf_data = tx0.encoded ++ NULL_SIGNATURE ++ NULL_SIGNATURE :=
  C4_merkle_leaf_data tx0 NULL_SIGNATURE NULL_SIGNATURE rfl

/-- C10: constructing with explicitly empty argument lists produces the
default record — two zero inputs, two null-address zero-amount outputs, two
null signatures, two null confirmations, and all-false `spent` — exactly the
record an argumentless construction produces (in the source, omitted
arguments default to the same empty lists). -/
theorem C10_empty_args_default_record :
    Transaction.make [] [] [] [] = Except.ok tx0 ∧
    tx0.inputs = List.replicate NUM_TXOS ⟨0, 0, 0⟩ ∧
    tx0.outputs = List.replicate NUM_TXOS ⟨NULL_ADDRESS, 0⟩ ∧
    tx0.signatures = List.replicate NUM_TXOS NULL_SIGNATURE ∧
    tx0.confirmations = List.replicate NUM_TXOS NULL_SIGNATURE ∧
    tx0.spent = List.replicate NUM_TXOS false :=
  ⟨rfl, rfl, rfl, rfl, rfl, rfl⟩

/-- `pad_list` succeeds exactly on lists no longer than the required length. -/
theorem pad_list_ok_of_le {α : Type} {l : List α} (p : α) {n : Nat} (h : l.length ≤ n) :
    pad_list l p n = Except.ok (l ++ List.replicate (n - l.length) p) := by
  unfold pad_list
  rw [if_neg (by omega)]

theorem orDefault_eq_self {α : Type} (xs d : List α) (h : xs ≠ []) :
    orDefault xs d = xs := by
  unfold orDefault
  rw [if_neg (by simpa [List.isEmpty_iff] using h)]

/-- C5: construction with more than `NUM_TXOS` inputs or outputs fails with
the length-violation error (never truncating); construction with a single
input gets the zero input `(0, 0, 0)` in slot 1, and with a single output the
`(null address, 0)` output in slot 1. -/
theorem C5_overflow_and_padding :
    (∀ (ins : List (Nat × Nat × Nat)) (outs : List (Bytes × Nat)) (sigs confs : List Bytes),
      NUM_TXOS < ins.length →
      Transaction.make ins outs sigs confs =
        Except.error "list cannot be longer than required length") ∧
    (∀ (ins : List (Nat × Nat × Nat)) (outs : List (Bytes × Nat)) (sigs confs : List Bytes),
      ins.length ≤ NUM_TXOS → NUM_TXOS < outs.length →
      Transaction.make ins outs sigs confs =
        Except.error "list cannot be longer than required length") ∧
    (∀ (i₀ : Nat × Nat × Nat) (outs : List (Bytes × Nat)) (sigs confs : List Bytes)
        (tx : Transaction),
      Transaction.make [i₀] outs sigs confs = Except.ok tx →
      tx.inputs = [TransactionInput.ofTriple i₀, ⟨0, 0, 0⟩]) ∧
    (∀ (ins : List (Nat × Nat × Nat)) (o₀ : Bytes × Nat) (sigs confs : List Bytes)
        (tx : Transaction),
      Transaction.make ins [o₀] sigs confs = Except.ok tx →
      tx.outputs = [TransactionOutput.ofPair o₀, ⟨NULL_ADDRESS, 0⟩]) := by
  refine ⟨?_, ?_, ?_, ?_⟩
  · intro ins outs sigs confs hlen
    unfold Transaction.make
    simp only [Bind.bind]
    rw [orDefault_eq_self ins _ (by intro e; rw [e] at hlen; simp [NUM_TXOS] at hlen),
      pad_list_err _ hlen]
    rfl
  · intro ins outs sigs confs hin hlen
    unfold Transaction.make
    simp only [Bind.bind]
    rw [pad_list_ok_of_le DEFAULT_INPUT (n := NUM_TXOS) ?hle]
    case hle =>
      unfold orDefault
      split
      · simp
      · exact hin
    rw [orDefault_eq_self outs _ (by intro e; rw [e] at hlen; simp [NUM_TXOS] at hlen),
      pad_list_err _ hlen]
    rfl
  · intro i₀ outs sigs confs tx h
    obtain ⟨pi, po, hpi, hpo, rfl⟩ := make_ok h
    have hpi2 : pad_list (orDefault [i₀] (List.replicate NUM_TXOS DEFAULT_INPUT))
        DEFAULT_INPUT NUM_TXOS = Except.ok [i₀, DEFAULT_INPUT] := by
      rw [orDefault_eq_self [i₀] _ (by simp), pad_list_ok_of_le]
      · rfl
      · simp [NUM_TXOS]
    rw [hpi2] at hpi
    injection hpi with hpi
    rw [hpi.symm]
    rfl
  · intro ins o₀ sigs confs tx h
    obtain ⟨pi, po, hpi, hpo, rfl⟩ := make_ok h
    have hpo2 : pad_list (orDefault [o₀] (List.replicate NUM_TXOS DEFAULT_OUTPUT))
        DEFAULT_OUTPUT NUM_TXOS = Except.ok [o₀, DEFAULT_OUTPUT] := by
      rw [orDefault_eq_self [o₀] _ (by simp), pad_list_ok_of_le]
      · rfl
      · simp [NUM_TXOS]
    rw [hpo2] at hpo
    injection hpo with hpo
    rw [hpo.symm]
    rfl

/-- Witness for C5: three inputs are rejected with the length-violation
error. -/
theorem C5_witness :
    Transaction.make [(1, 2, 3), (4, 5, 6), (7, 8, 9)] [] [] [] =
      Except.error "list cannot be longer than required length" :=
  C5_overflow_and_padding.1 [(1, 2, 3), (4, 5, 6), (7, 8, 9)] [] [] [] (by decide)

/-- C6 counterexample: index `-1` lies outside `[0, NUM_TXOS)`, yet
`sign(-1, key)` on the default record does not fail — it silently overwrites
signature slot 1 with a non-null signature (Python negative indexing). -/
theorem C6_counterexample :
    ¬ (0 ≤ (-1 : Int) ∧ (-1 : Int) < (NUM_TXOS : Int)) ∧
    (tx0.sign id (-1) 1).map (fun t => t.signatures.getD 1 []) =
      Except.ok (sigSign (tx0.hash id) 1) ∧
    sigSign (tx0.hash id) 1 ≠ NULL_SIGNATURE :=
  ⟨by decide, rfl, sigSign_ne_null _ _⟩

/-- C6 (amended): on a transaction whose signature and confirmation sequences
have length `NUM_TXOS`, `sign`/`confirm` with any index outside
`[-NUM_TXOS, NUM_TXOS)` fails loudly with the index-out-of-bounds error and
modifies nothing; indices in `[-NUM_TXOS, 0)` instead alias slot
`NUM_TXOS + index`. -/
theorem C6_out_of_range (tx : Transaction) (H : Bytes → Bytes) (index : Int) (k : Key)
    (hs : tx.signatures.length = NUM_TXOS) (hc : tx.confirmations.length = NUM_TXOS)
    (hout : index < -(NUM_TXOS : Int) ∨ (NUM_TXOS : Int) ≤ index) :
    tx.sign H index k = Except.error "list assignment index out of range" ∧
    tx.confirm H index k = Except.error "list assignment index out of range" := by
  constructor
  · unfold Transaction.sign
    simp only [Bind.bind]
    rw [listSetPy_err _ (by rw [hs]; exact hout)]
    rfl
  · unfold Transaction.confirm
    simp only [Bind.bind]
    rw [listSetPy_err _ (by rw [hc]; exact hout)]
    rfl

/-- Witness for C6 (amended): index 5 is rejected on the default record. -/
theorem C6_witness :
    tx0.sign id 5 1 = Except.error "list assignment index out of range" :=
  (C6_out_of_range tx0 id 5 1 rfl rfl (by decide)).1

/-- C8: `is_deposit` holds exactly when every input has `blknum = 0`, and any
transaction constructed with an empty inputs argument is a deposit. -/
theorem C8_is_deposit :
    (∀ tx : Transaction, tx.is_deposit = true ↔ ∀ i ∈ tx.inputs, i.blknum = 0) ∧
    (∀ (outs : List (Bytes × Nat)) (sigs confs : List Bytes) (tx : Transaction),
      Transaction.make [] outs sigs confs = Except.ok tx → tx.is_deposit = true) := by
  constructor
  · intro tx
    unfold Transaction.is_deposit
    simp [List.all_eq_true]
  · intro outs sigs confs tx h
    obtain ⟨pi, po, hpi, hpo, rfl⟩ := make_ok h
    have hpi2 : pad_list (orDefault ([] : List (Nat × Nat × Nat))
        (List.replicate NUM_TXOS DEFAULT_INPUT)) DEFAULT_INPUT NUM_TXOS =
        Except.ok [DEFAULT_INPUT, DEFAULT_INPUT] := rfl
    rw [hpi2] at hpi
    injection hpi with hpi
    rw [hpi.symm]
    rfl

/-- Witness for C8: the default record is a deposit. -/
theorem C8_witness : tx0.is_deposit = true :=
  C8_is_deposit.2 [] [] [] tx0 rfl

/-- C9: with an in-range index, `sign` changes only `signatures[index]` and
`confirm` changes only `confirmations[index]`: inputs, outputs, spent, the
respectively untouched sequence and every other slot are unchanged. -/
theorem C9_sign_confirm_frame (H : Bytes → Bytes) (tx : Transaction) (i : Int) (k : Key)
    (h0 : 0 ≤ i) ( _h2 : i < (NUM_TXOS : Int)) :
    (∀ tx₃ : Transaction, tx.sign H i k = Except.ok tx₃ →
      tx₃.inputs = tx.inputs ∧ tx₃.outputs = tx.outputs ∧ tx₃.spent = tx.spent ∧
      tx₃.confirmations = tx.confirmations ∧
      tx₃.signatures = tx.signatures.set i.toNat (sigSign (tx.hash H) k) ∧
      ∀ j : Nat, j ≠ i.toNat → tx₃.signatures.getD j [] = tx.signatures.getD j []) ∧
    (∀ tx₃ : Transaction, tx.confirm H i k = Except.ok tx₃ →
      tx₃.inputs = tx.inputs ∧ tx₃.outputs = tx.outputs ∧ tx₃.spent = tx.spent ∧
      tx₃.signatures = tx.signatures ∧
      tx₃.confirmations = tx.confirmations.set i.toNat (sigSign (tx.confirmation_hash H) k) ∧
      ∀ j : Nat, j ≠ i.toNat → tx₃.confirmations.getD j [] = tx.confirmations.getD j []) := by
  constructor
  · intro tx₃ h₃
    obtain ⟨s, hs, rfl⟩ := sign_ok h₃
    obtain ⟨hlt, rfl⟩ := listSetPy_ok_nonneg h0 hs
    refine ⟨rfl, rfl, rfl, rfl, rfl, fun j hj => ?_⟩
    rw [List.getD_eq_getElem?_getD, List.getD_eq_getElem?_getD,
      List.getElem?_set_ne (Ne.symm hj)]
  · intro tx₃ h₃
    obtain ⟨c, hc, rfl⟩ := confirm_ok h₃
    obtain ⟨hlt, rfl⟩ := listSetPy_ok_nonneg h0 hc
    refine ⟨rfl, rfl, rfl, rfl, rfl, fun j hj => ?_⟩
    rw [List.getD_eq_getElem?_getD, List.getD_eq_getElem?_getD,
      List.getElem?_set_ne (Ne.symm hj)]

/-- Witness for C9: signing slot 0 of the default record leaves the
confirmations untouched. -/
theorem C9_witness :
    ({ tx0 with signatures := [sigSign (tx0.hash id) 3, NULL_SIGNATURE] } :
      Transaction).confirmations = tx0.confirmations :=
  (((C9_sign_confirm_frame id tx0 0 3 (by decide) (by decide)).1 _ rfl).2.2.2.1)

/-- C7: per slot, `signers` is the null address exactly for the null
signature and otherwise the address recovered from `(hash, signature)`;
after `sign(0, k)` the slot-0 signer is the address derived from `k`, and
slot 1 stays the null address when it was never signed. -/
theorem C7_signers_recovery (H : Bytes → Bytes) :
    (∀ (tx : Transaction) (j : Nat), j < tx.signatures.length →
      (tx.signers H).getD j [] =
        (if tx.signatures.getD j [] = NULL_SIGNATURE then NULL_ADDRESS
         else get_signer (tx.hash H) (tx.signatures.getD j []))) ∧
    (∀ (tx tx₃ : Transaction) (k : Key), tx.sign H 0 k = Except.ok tx₃ →
      (tx₃.signers H).getD 0 [] = addressOf k ∧
      (tx.signatures.getD 1 [] = NULL_SIGNATURE →
        (tx₃.signers H).getD 1 [] = NULL_ADDRESS)) := by
  constructor
  · exact fun tx j hj => signers_getD H tx j hj
  · intro tx tx₃ k h₃
    obtain ⟨s, hs, rfl⟩ := sign_ok h₃
    obtain ⟨hlt, rfl⟩ := listSetPy_ok_nonneg (by decide) hs
    have hlen : 0 < tx.signatures.length := by exact_mod_cast hlt
    obtain ⟨a, rest, hsig⟩ := List.exists_cons_of_ne_nil (List.ne_nil_of_length_pos hlen)
    constructor
    · show ((({ tx with
          signatures := tx.signatures.set (Int.toNat 0) (sigSign (tx.hash H) k) } :
            Transaction).signers H).getD 0 []) = addressOf k
      unfold Transaction.signers
      rw [hsig]
      simp only [Int.toNat_zero, List.set_cons_zero, List.map_cons, List.getD_cons_zero]
      rw [if_neg (sigSign_ne_null _ _)]
      exact get_signer_sigSign _ _ k
    · intro hnull
      rw [hsig] at hnull
      simp only [List.getD_cons_succ] at hnull
      show ((({ tx with
          signatures := tx.signatures.set (Int.toNat 0) (sigSign (tx.hash H) k) } :
            Transaction).signers H).getD 1 []) = NULL_ADDRESS
      unfold Transaction.signers
      rw [hsig]
      simp only [Int.toNat_zero, List.set_cons_zero, List.map_cons, List.getD_cons_succ]
      cases rest with
      | nil => exact absurd hnull (by decide)
      | cons b rest₂ =>
        simp only [List.getD_cons_zero] at hnull
        simp only [List.map_cons, List.getD_cons_zero]
        rw [if_pos hnull]

/-- Witness for C7: signing slot 0 of the default record with key 7 makes the
slot-0 signer the address derived from key 7. -/
theorem C7_witness :
    (({ tx0 with signatures := [sigSign (tx0.hash id) 7, NULL_SIGNATURE] } :
      Transaction).signers id).getD 0 [] = addressOf 7 :=
  ((C7_signers_recovery id).2 tx0 _ 7 rfl).1

end Plasma
